import Mathlib

/-!
Shallow embedding of the animation driver in `src/app.py` ("Quantum AI vs
Classical AI" demo) and proofs about it.

The Python loop (lines 78-123) computes, for each frame index `i` in
`range(frames)` with `frames = duration * 5`:

  elapsed = time.time() - start            -- computed, never used
  t = i * (duration / frames)              -- appended to `times`
  c = int(i * (max_candidates / frames))   -- appended to `classical`
  q = min(int(2 ** (i * np.log2(max_candidates) / frames)), max_candidates)
                                           -- appended to `quantum`
  if not quantum_triggered and q > c * 3: (side effects); quantum_triggered = True

and afterwards (lines 126-130) derives the final metrics from the last
elements of the two series with unguarded `[-1]` indexing and division.

The embedding uses exact arithmetic: all quantities in the per-frame
formulas are nonnegative, so Python's `int(...)` truncation is the floor,
and `2 ** (i * log2 M / f)` equals the real number `M ^ (i / f)`, whose
floor is the greatest natural `n` with `n ^ f ≤ M ^ i` (the lemma
`quantumPow_eq_floor_rpow` below proves this characterisation against the
real-power form).  Wall-clock reads (`time.time()`) are modelled by an
explicit clock function so that their (non-)influence on the series can be
stated.  Python exceptions (`IndexError` on `[-1]` of an empty list,
`ZeroDivisionError`) are modelled by `Except`.
-/

namespace QuantumSim

/-- Frame count, `frames = duration * 5` (src/app.py line 78; the duration
slider yields an integer number of seconds). -/
def frames (duration : ℕ) : ℕ := duration * 5

/-- Per-frame classical value, `c = int(i * (max_candidates / frames))`
(line 90): in exact arithmetic `int` truncates the nonnegative real
`i * M / f`, giving the natural-number quotient. -/
def classicalCount (max_candidates f i : ℕ) : ℕ := i * max_candidates / f

/-- The untruncated quantum value `int(2 ** (i * np.log2(max_candidates) / frames))`
(line 91) in exact arithmetic: `2 ^ (i * log2 M / f) = M ^ (i / f)`, and for
`i ≤ f` (every loop iteration has `i < f`) its floor is the greatest `n ≤ M`
with `n ^ f ≤ M ^ i`.  `quantumPow_eq_floor_rpow` below proves this equal to
the floor of the real power. -/
def quantumPow (max_candidates f i : ℕ) : ℕ :=
  Nat.findGreatest (fun n => n ^ f ≤ max_candidates ^ i) max_candidates

/-- Per-frame quantum value with the clamp,
`q = min(int(2 ** (i * np.log2(max_candidates) / frames)), max_candidates)` (line 91). -/
def quantumCount (max_candidates f i : ℕ) : ℕ :=
  min (quantumPow max_candidates f i) max_candidates

/-- State of one run of the animation loop: the three append-only series,
the one-shot breakthrough flag `quantum_triggered` (line 80), and a count of
how many times the breakthrough side effects (sound, banner, optional
molecule render, lines 117-120) have executed. -/
structure SimState where
  times : List ℚ
  classical : List ℕ
  quantum : List ℕ
  quantum_triggered : Bool
  breakthroughEvents : ℕ
  deriving DecidableEq

/-- The empty state before the loop starts (lines 79-80). -/
def initState : SimState :=
  { times := [], classical := [], quantum := [], quantum_triggered := false,
    breakthroughEvents := 0 }

/-- One iteration of the loop body (lines 85-123) for frame index `i`.
`clock` models `time.time()` and `start` the reading taken at line 83; the
`elapsed` binding (line 86) is computed and never used, exactly as in the
source.  The chart redraw (lines 95-114) has no effect on the state. -/
def stepFrame (duration max_candidates : ℕ) (clock : ℕ → ℚ) (start : ℚ)
    (s : SimState) (i : ℕ) : SimState :=
  let _elapsed : ℚ := clock i - start
  let f := frames duration
  let t : ℚ := (i : ℚ) * ((duration : ℚ) / (f : ℚ))
  let c := classicalCount max_candidates f i
  let q := quantumCount max_candidates f i
  let times := s.times ++ [t]
  let classical := s.classical ++ [c]
  let quantum := s.quantum ++ [q]
  if s.quantum_triggered = false ∧ q > c * 3 then
    { times := times, classical := classical, quantum := quantum,
      quantum_triggered := true, breakthroughEvents := s.breakthroughEvents + 1 }
  else
    { times := times, classical := classical, quantum := quantum,
      quantum_triggered := s.quantum_triggered,
      breakthroughEvents := s.breakthroughEvents }

/-- State after the first `n` iterations of the loop (frames `0 .. n-1`). -/
def runUpTo (duration max_candidates : ℕ) (clock : ℕ → ℚ) (start : ℚ) :
    ℕ → SimState
  | 0 => initState
  | n + 1 =>
    stepFrame duration max_candidates clock start
      (runUpTo duration max_candidates clock start n) n

/-- A completed run: all `frames duration` iterations of `for i in range(frames)`. -/
def run (duration max_candidates : ℕ) (clock : ℕ → ℚ) (start : ℚ) : SimState :=
  runUpTo duration max_candidates clock start (frames duration)

/-- A constant clock, used to instantiate theorems at concrete inputs. -/
def clock0 : ℕ → ℚ := fun _ => 0

/-- Python runtime faults that the final-metrics section can raise:
`IndexError` from `quantum[-1]` / `classical[-1]` on an empty list, and
`ZeroDivisionError` from `/`. -/
inductive PyError where
  | indexError
  | zeroDivisionError
  deriving DecidableEq

/-- The final metrics of lines 126-130.  The `round(..., 2)` / `round(..., 5)`
display rounding is omitted: it cannot raise and the claims under study only
concern the guarding of the derivation, not the printed precision. -/
structure Metrics where
  q_total : ℕ
  c_total : ℕ
  speedup : ℚ
  time_per_molecule_q : ℚ
  time_per_molecule_c : ℚ
  deriving DecidableEq

/-- Final-metrics derivation (lines 126-130), in source order:
`q_total = quantum[-1]` (IndexError on an empty list), `c_total = classical[-1]`,
`speedup = q_total / c_total` (ZeroDivisionError when `c_total == 0`), then the
two per-molecule times (ZeroDivisionError when `q_total == 0`).  There is no
guard in the source: each fault is modelled as an `Except.error`. -/
def finalMetrics (duration : ℕ) (classical quantum : List ℕ) :
    Except PyError Metrics :=
  match quantum.getLast? with
  | none => Except.error PyError.indexError
  | some q_total =>
    match classical.getLast? with
    | none => Except.error PyError.indexError
    | some c_total =>
      if c_total = 0 then Except.error PyError.zeroDivisionError
      else if q_total = 0 then Except.error PyError.zeroDivisionError
      else Except.ok
        { q_total := q_total, c_total := c_total,
          speedup := (q_total : ℚ) / (c_total : ℚ),
          time_per_molecule_q := (duration : ℚ) / (q_total : ℚ),
          time_per_molecule_c := (duration : ℚ) / (c_total : ℚ) }

/-- Python's `str.strip()` (no argument): drop leading and trailing
whitespace.  Defined over the character list so it evaluates by kernel
reduction. -/
def pyStrip (s : String) : String :=
  String.mk
    (((s.data.dropWhile Char.isWhitespace).reverse.dropWhile
      Char.isWhitespace).reverse)

/-- Name lookup `get_scientific_name` (lines 38-42): a one-entry table keyed by
the stripped SMILES string, with the sentinel `"Unknown Compound"` as the
`dict.get` default. -/
def get_scientific_name (smiles : String) : String :=
  if pyStrip smiles = "CC(=O)OC1=CC=CC=C1C(=O)O" then "Acetylsalicylic acid (Aspirin)"
  else "Unknown Compound"

/-- The molecule-display part of the breakthrough branch (lines 119-120):
`if show_molecule: st.image(get_molecule_img_dark(smiles), caption=...)`.
The renderer `get_molecule_img_dark` calls the external cheminformatics
toolkit and is passed in as a fallible function; the source wraps the call in
no `try`/`except`, so a renderer failure propagates out of the branch —
this definition reproduces exactly that propagation. -/
def breakthroughDisplay {ε α : Type} (render : String → Except ε α)
    (show_molecule : Bool) (smiles : String) : Except ε (Option (α × String)) :=
  if show_molecule then
    match render smiles with
    | Except.error e => Except.error e
    | Except.ok img => Except.ok (some (img, get_scientific_name smiles))
  else Except.ok none

/-- A renderer that fails on every input, as `get_molecule_img_dark` does on an
invalid SMILES: `Chem.MolFromSmiles` returns `None` and `DrawMolecule(None)`
raises (modelled from the spec: the Molecule Renderer "fails if the descriptor
is invalid"). -/
def failingRender : String → Except String Unit :=
  fun _ => Except.error "ArgumentError"

deriving instance DecidableEq for Except

/-! ### Helper lemmas about one loop iteration -/

variable {duration max_candidates : ℕ} {clock : ℕ → ℚ} {start : ℚ}

theorem stepFrame_times (s : SimState) (i : ℕ) :
    (stepFrame duration max_candidates clock start s i).times =
      s.times ++ [(i : ℚ) * ((duration : ℚ) / ((frames duration) : ℚ))] := by
  simp only [stepFrame]
  split <;> rfl

theorem stepFrame_classical (s : SimState) (i : ℕ) :
    (stepFrame duration max_candidates clock start s i).classical =
      s.classical ++ [classicalCount max_candidates (frames duration) i] := by
  simp only [stepFrame]
  split <;> rfl

theorem stepFrame_quantum (s : SimState) (i : ℕ) :
    (stepFrame duration max_candidates clock start s i).quantum =
      s.quantum ++ [quantumCount max_candidates (frames duration) i] := by
  simp only [stepFrame]
  split <;> rfl

theorem stepFrame_triggered (s : SimState) (i : ℕ) :
    (stepFrame duration max_candidates clock start s i).quantum_triggered =
      (s.quantum_triggered ||
        decide (classicalCount max_candidates (frames duration) i * 3 <
          quantumCount max_candidates (frames duration) i)) := by
  simp only [stepFrame]
  split <;> rename_i h
  · simp [h.1, h.2]
  · cases hb : s.quantum_triggered with
    | false =>
      have hq : ¬ (classicalCount max_candidates (frames duration) i * 3 <
          quantumCount max_candidates (frames duration) i) := fun hlt => h ⟨hb, hlt⟩
      simp [hq]
    | true => simp

theorem stepFrame_events (s : SimState) (i : ℕ) :
    (stepFrame duration max_candidates clock start s i).breakthroughEvents =
      if s.quantum_triggered = false ∧
          classicalCount max_candidates (frames duration) i * 3 <
            quantumCount max_candidates (frames duration) i
        then s.breakthroughEvents + 1 else s.breakthroughEvents := by
  simp only [stepFrame]
  split <;> rename_i h
  · simp [h]
  · simp [h]

/-! ### Helper lemmas about the iterated loop -/

theorem runUpTo_times_succ (n : ℕ) :
    (runUpTo duration max_candidates clock start (n + 1)).times =
      (runUpTo duration max_candidates clock start n).times ++
        [(n : ℚ) * ((duration : ℚ) / ((frames duration) : ℚ))] :=
  stepFrame_times _ _

theorem runUpTo_classical_succ (n : ℕ) :
    (runUpTo duration max_candidates clock start (n + 1)).classical =
      (runUpTo duration max_candidates clock start n).classical ++
        [classicalCount max_candidates (frames duration) n] :=
  stepFrame_classical _ _

theorem runUpTo_quantum_succ (n : ℕ) :
    (runUpTo duration max_candidates clock start (n + 1)).quantum =
      (runUpTo duration max_candidates clock start n).quantum ++
        [quantumCount max_candidates (frames duration) n] :=
  stepFrame_quantum _ _

theorem runUpTo_times_length (n : ℕ) :
    (runUpTo duration max_candidates clock start n).times.length = n := by
  induction n with
  | zero => rfl
  | succ n ih => rw [runUpTo_times_succ, List.length_append, ih]; rfl

theorem runUpTo_classical_length (n : ℕ) :
    (runUpTo duration max_candidates clock start n).classical.length = n := by
  induction n with
  | zero => rfl
  | succ n ih => rw [runUpTo_classical_succ, List.length_append, ih]; rfl

theorem runUpTo_quantum_length (n : ℕ) :
    (runUpTo duration max_candidates clock start n).quantum.length = n := by
  induction n with
  | zero => rfl
  | succ n ih => rw [runUpTo_quantum_succ, List.length_append, ih]; rfl

theorem getElem?_append_singleton {α : Type} (l : List α) (a : α) (i : ℕ)
    (h : l.length = i) : (l ++ [a])[i]? = some a := by
  subst h
  exact List.getElem?_concat_length _ _

theorem runUpTo_classical_getElem (n i : ℕ) (h : i < n) :
    (runUpTo duration max_candidates clock start n).classical[i]? =
      some (classicalCount max_candidates (frames duration) i) := by
  induction n with
  | zero => omega
  | succ n ih =>
    rw [runUpTo_classical_succ]
    rcases Nat.lt_or_ge i n with hin | hin
    · rw [List.getElem?_append_left (by rw [runUpTo_classical_length]; exact hin)]
      exact ih hin
    · have hi : i = n := by omega
      subst hi
      exact getElem?_append_singleton _ _ _ (runUpTo_classical_length i)

theorem runUpTo_quantum_getElem (n i : ℕ) (h : i < n) :
    (runUpTo duration max_candidates clock start n).quantum[i]? =
      some (quantumCount max_candidates (frames duration) i) := by
  induction n with
  | zero => omega
  | succ n ih =>
    rw [runUpTo_quantum_succ]
    rcases Nat.lt_or_ge i n with hin | hin
    · rw [List.getElem?_append_left (by rw [runUpTo_quantum_length]; exact hin)]
      exact ih hin
    · have hi : i = n := by omega
      subst hi
      exact getElem?_append_singleton _ _ _ (runUpTo_quantum_length i)

theorem runUpTo_quantum_getLast (n : ℕ) :
    (runUpTo duration max_candidates clock start (n + 1)).quantum.getLast? =
      some (quantumCount max_candidates (frames duration) n) := by
  rw [runUpTo_quantum_succ]
  exact List.getLast?_concat _

theorem runUpTo_classical_getLast (n : ℕ) :
    (runUpTo duration max_candidates clock start (n + 1)).classical.getLast? =
      some (classicalCount max_candidates (frames duration) n) := by
  rw [runUpTo_classical_succ]
  exact List.getLast?_concat _

/-! ### The `quantumPow` search is the floor of the real power of line 91 -/

theorem quantumPow_mem_iff (M f i : ℕ) (hM : 1 ≤ M) (hf : 0 < f)
    (n : ℕ) : n ^ f ≤ M ^ i ↔
      (n : ℝ) ≤ (M : ℝ) ^ ((i : ℝ) / (f : ℝ)) := by
  have hM0 : (0 : ℝ) ≤ (M : ℝ) := by positivity
  have hf0 : (0 : ℝ) < (f : ℝ) := by exact_mod_cast hf
  have hr0 : (0 : ℝ) ≤ (M : ℝ) ^ ((i : ℝ) / (f : ℝ)) := Real.rpow_nonneg hM0 _
  have hrf : ((M : ℝ) ^ ((i : ℝ) / (f : ℝ))) ^ f = (M : ℝ) ^ i := by
    rw [← Real.rpow_natCast ((M : ℝ) ^ ((i : ℝ) / (f : ℝ))) f, ← Real.rpow_mul hM0,
      div_mul_cancel₀ _ (ne_of_gt hf0), Real.rpow_natCast]
  constructor
  · intro h
    have h' : (n : ℝ) ^ f ≤ ((M : ℝ) ^ ((i : ℝ) / (f : ℝ))) ^ f := by
      rw [hrf]; exact_mod_cast h
    exact le_of_pow_le_pow_left₀ (Nat.pos_iff_ne_zero.mp hf) hr0 h'
  · intro h
    have h' : (n : ℝ) ^ f ≤ ((M : ℝ) ^ ((i : ℝ) / (f : ℝ))) ^ f :=
      pow_le_pow_left₀ (by positivity) h f
    rw [hrf] at h'
    exact_mod_cast h'

theorem quantumPow_eq_floor_rpow (M f i : ℕ) (hM : 1 ≤ M) (hf : 0 < f)
    (hif : i ≤ f) :
    quantumPow M f i = Nat.floor ((M : ℝ) ^ ((i : ℝ) / (f : ℝ))) := by
  have hM0 : (0 : ℝ) ≤ (M : ℝ) := by positivity
  have hM1 : (1 : ℝ) ≤ (M : ℝ) := by exact_mod_cast hM
  have hf0 : (0 : ℝ) < (f : ℝ) := by exact_mod_cast hf
  have hr0 : (0 : ℝ) ≤ (M : ℝ) ^ ((i : ℝ) / (f : ℝ)) := Real.rpow_nonneg hM0 _
  have hkey : ∀ n : ℕ, n ^ f ≤ M ^ i ↔
      n ≤ Nat.floor ((M : ℝ) ^ ((i : ℝ) / (f : ℝ))) := by
    intro n
    rw [Nat.le_floor_iff hr0]
    exact quantumPow_mem_iff M f i hM hf n
  have hfloor_le : Nat.floor ((M : ℝ) ^ ((i : ℝ) / (f : ℝ))) ≤ M := by
    have hle : (M : ℝ) ^ ((i : ℝ) / (f : ℝ)) ≤ (M : ℝ) := by
      calc (M : ℝ) ^ ((i : ℝ) / (f : ℝ)) ≤ (M : ℝ) ^ (1 : ℝ) :=
            Real.rpow_le_rpow_of_exponent_le hM1
              (by rw [div_le_one hf0]; exact_mod_cast hif)
        _ = (M : ℝ) := Real.rpow_one _
    calc Nat.floor ((M : ℝ) ^ ((i : ℝ) / (f : ℝ))) ≤ Nat.floor ((M : ℝ)) :=
          Nat.floor_mono hle
      _ = M := Nat.floor_natCast M
  rw [quantumPow]
  apply Nat.findGreatest_eq_iff.mpr
  refine ⟨hfloor_le, fun _ => ?_, fun n hn _ => ?_⟩
  · exact (hkey _).mpr le_rfl
  · intro hP
    exact absurd ((hkey n).mp hP) (by omega)

theorem two_rpow_eq_rpow_div (M f i : ℕ) (hM : 1 ≤ M) :
    (2 : ℝ) ^ (((i : ℝ) * Real.logb 2 (M : ℝ)) / (f : ℝ)) =
      (M : ℝ) ^ ((i : ℝ) / (f : ℝ)) := by
  have hM0 : (0 : ℝ) < (M : ℝ) := by exact_mod_cast hM
  rw [mul_comm (i : ℝ), mul_div_assoc, Real.rpow_mul (by norm_num),
    Real.rpow_logb (by norm_num) (by norm_num) hM0]

/-! ### Monotonicity of the per-frame formulas -/

theorem classicalCount_mono (M f i : ℕ) :
    classicalCount M f i ≤ classicalCount M f (i + 1) :=
  Nat.div_le_div_right (Nat.mul_le_mul_right M (Nat.le_succ i))

theorem quantumPow_mono (M f i : ℕ) (hM : 1 ≤ M) :
    quantumPow M f i ≤ quantumPow M f (i + 1) :=
  Nat.findGreatest_mono
    (fun _ hn => le_trans hn (Nat.pow_le_pow_right hM (Nat.le_succ i))) le_rfl

theorem quantumCount_mono (M f i : ℕ) (hM : 1 ≤ M) :
    quantumCount M f i ≤ quantumCount M f (i + 1) :=
  min_le_min (quantumPow_mono M f i hM) le_rfl

theorem quantumCount_le (M f i : ℕ) : quantumCount M f i ≤ M :=
  min_le_right _ _

theorem one_le_quantumCount_zero (M f : ℕ) (hM : 1 ≤ M) :
    1 ≤ quantumCount M f 0 := by
  rw [quantumCount]
  refine le_min ?_ hM
  rw [quantumPow]
  exact Nat.le_findGreatest hM (by simp)

theorem classicalCount_zero (M f : ℕ) : classicalCount M f 0 = 0 := by
  rw [classicalCount]
  simp

/-! ### Breakthrough-flag invariants -/

theorem runUpTo_triggered_mono (n : ℕ)
    (h : (runUpTo duration max_candidates clock start n).quantum_triggered = true) :
    (runUpTo duration max_candidates clock start (n + 1)).quantum_triggered = true := by
  rw [runUpTo, stepFrame_triggered, h, Bool.true_or]

theorem runUpTo_triggered_of_le (m n : ℕ) (hmn : m ≤ n)
    (h : (runUpTo duration max_candidates clock start m).quantum_triggered = true) :
    (runUpTo duration max_candidates clock start n).quantum_triggered = true := by
  induction hmn with
  | refl => exact h
  | step h' ih => exact runUpTo_triggered_mono _ ih

theorem runUpTo_events_eq (n : ℕ) :
    (runUpTo duration max_candidates clock start n).breakthroughEvents =
      if (runUpTo duration max_candidates clock start n).quantum_triggered = true
        then 1 else 0 := by
  induction n with
  | zero => rfl
  | succ n ih =>
    rw [runUpTo, stepFrame_events, stepFrame_triggered, ih]
    cases hb : (runUpTo duration max_candidates clock start n).quantum_triggered with
    | false => by_cases hq : classicalCount max_candidates (frames duration) n * 3 <
        quantumCount max_candidates (frames duration) n <;> simp [hq]
    | true => simp

theorem runUpTo_one_triggered (hM : 1 ≤ max_candidates) :
    (runUpTo duration max_candidates clock start 1).quantum_triggered = true := by
  rw [runUpTo, stepFrame_triggered]
  have hq : classicalCount max_candidates (frames duration) 0 * 3 <
      quantumCount max_candidates (frames duration) 0 := by
    rw [classicalCount_zero]
    exact lt_of_lt_of_le Nat.zero_lt_one
      (one_le_quantumCount_zero max_candidates (frames duration) hM)
  simp [runUpTo, initState, hq]

/-! ### The series grow monotonically -/

theorem runUpTo_classical_chain (n : ℕ) :
    List.Chain' (fun a b => a ≤ b)
      (runUpTo duration max_candidates clock start n).classical := by
  induction n with
  | zero => simp [runUpTo, initState]
  | succ n ih =>
    rw [runUpTo_classical_succ, List.chain'_append]
    refine ⟨ih, List.chain'_singleton _, fun x hx y hy => ?_⟩
    cases n with
    | zero => simp [runUpTo, initState] at hx
    | succ m =>
      rw [runUpTo_classical_getLast] at hx
      simp only [Option.mem_def, Option.some.injEq] at hx
      simp only [List.head?_cons, Option.mem_def, Option.some.injEq] at hy
      subst hx
      subst hy
      exact classicalCount_mono max_candidates (frames duration) m

theorem runUpTo_quantum_chain (n : ℕ) (hM : 1 ≤ max_candidates) :
    List.Chain' (fun a b => a ≤ b)
      (runUpTo duration max_candidates clock start n).quantum := by
  induction n with
  | zero => simp [runUpTo, initState]
  | succ n ih =>
    rw [runUpTo_quantum_succ, List.chain'_append]
    refine ⟨ih, List.chain'_singleton _, fun x hx y hy => ?_⟩
    cases n with
    | zero => simp [runUpTo, initState] at hx
    | succ m =>
      rw [runUpTo_quantum_getLast] at hx
      simp only [Option.mem_def, Option.some.injEq] at hx
      simp only [List.head?_cons, Option.mem_def, Option.some.injEq] at hy
      subst hx
      subst hy
      exact quantumCount_mono max_candidates (frames duration) m hM

/-! ### The series do not depend on the wall clock -/

theorem runUpTo_clock_irrelevant (d M : ℕ) (c₁ c₂ : ℕ → ℚ) (s₁ s₂ : ℚ) (n : ℕ) :
    runUpTo d M c₁ s₁ n = runUpTo d M c₂ s₂ n := by
  induction n with
  | zero => rfl
  | succ n ih =>
    rw [runUpTo, runUpTo, ih]
    rfl

/-! ### Claims -/

/-- C1 (corrected).  The original claim, that `quantum[frame_count-1]` equals
`max_candidates`, is false: the exponent at the last frame is
`(frame_count-1)/frame_count < 1`, so the clamp never fires and the last
element is the strictly smaller `min(floor(M^((f-1)/f)), M)`.  This theorem
states the corrected property: for every configuration with
`frame_count ≥ 1`, the last element of the quantum series equals
`quantumCount M f (f-1)` and is at most (not equal to) `max_candidates`. -/
theorem quantum_last_is_clamped_power (d M : ℕ) (c : ℕ → ℚ) (s : ℚ)
    (hd : 1 ≤ frames d) :
    (run d M c s).quantum.getLast? =
      some (quantumCount M (frames d) (frames d - 1)) ∧
    quantumCount M (frames d) (frames d - 1) ≤ M := by
  constructor
  · have h2 : frames d - 1 + 1 = frames d := Nat.succ_pred_eq_of_pos hd
    have h : (run d M c s).quantum.getLast? =
        (runUpTo d M c s (frames d - 1 + 1)).quantum.getLast? := by
      rw [h2]
      rfl
    rw [h, runUpTo_quantum_getLast]
  · exact quantumCount_le M (frames d) (frames d - 1)

/-- Witness for C1's corrected theorem at `max_candidates = 100`,
`duration = 5`. -/
theorem quantum_last_is_clamped_power_witness :
    (run 5 100 clock0 0).quantum.getLast? =
      some (quantumCount 100 (frames 5) (frames 5 - 1)) ∧
    quantumCount 100 (frames 5) (frames 5 - 1) ≤ 100 :=
  quantum_last_is_clamped_power 5 100 clock0 0 (by decide)

set_option maxRecDepth 20000 in
/-- C1 counterexample.  At the claim's own scenario (`max_candidates = 100`,
`duration = 5`, so `frame_count = 25`), the last quantum value is
`floor(100^(24/25)) = 83`, not `100`. -/
theorem quantum_last_ne_max_candidates :
    (run 5 100 clock0 0).quantum.getLast? = some 83 ∧
    (run 5 100 clock0 0).quantum.getLast? ≠ some 100 := by
  have h : (run 5 100 clock0 0).quantum.getLast? =
      some (quantumCount 100 (frames 5) 24) := runUpTo_quantum_getLast 24
  constructor
  · rw [h]
    decide
  · rw [h]
    decide

/-- C2 (code_bug).  When the last element of the classical series is `0`,
the unguarded `speedup = q_total / c_total` (line 128) raises
`ZeroDivisionError` — the code does not report a guarded "undefined"/"no
data" result as the claim requires. -/
theorem metrics_zero_classical_raises (d : ℕ) (cs qs : List ℕ) (q : ℕ)
    (hq : qs.getLast? = some q) (hc : cs.getLast? = some 0) :
    finalMetrics d cs qs = Except.error PyError.zeroDivisionError := by
  simp [finalMetrics, hq, hc]

set_option maxRecDepth 20000 in
/-- Witness for C2 at a run that actually produces `classical_total = 0`:
`duration = 5`, `max_candidates = 1` (within the spec's configuration domain
`max_candidates > 0`, below the UI slider minimum) makes every classical
value `floor(i·1/25) = 0`. -/
theorem metrics_zero_classical_raises_witness :
    finalMetrics 5 (run 5 1 clock0 0).classical (run 5 1 clock0 0).quantum =
      Except.error PyError.zeroDivisionError :=
  metrics_zero_classical_raises 5 (run 5 1 clock0 0).classical
    (run 5 1 clock0 0).quantum 1 (by decide) (by decide)

/-- C3 (confirmed).  For every configuration and frame index `i < frame_count`
(with `frame_count = duration × 5`), the value appended to the classical
series at frame `i` is `floor(i · max_candidates / frame_count)` and the value
appended to the quantum series is
`min(floor(2^(i·log2(max_candidates)/frame_count)), max_candidates)`,
the power taken over the reals. -/
theorem per_frame_formulas (d M : ℕ) (c : ℕ → ℚ) (s : ℚ) (i : ℕ)
    (hM : 1 ≤ M) (hi : i < frames d) :
    frames d = d * 5 ∧
    (run d M c s).classical[i]? = some (i * M / frames d) ∧
    (run d M c s).quantum[i]? =
      some (min (Nat.floor
        ((2 : ℝ) ^ (((i : ℝ) * Real.logb 2 (M : ℝ)) / ((frames d) : ℝ)))) M) := by
  have hf : 0 < frames d := Nat.lt_of_le_of_lt (Nat.zero_le i) hi
  refine ⟨rfl, runUpTo_classical_getElem (frames d) i hi, ?_⟩
  have hq : (run d M c s).quantum[i]? = some (quantumCount M (frames d) i) :=
    runUpTo_quantum_getElem (frames d) i hi
  rw [hq, two_rpow_eq_rpow_div M (frames d) i hM,
    ← quantumPow_eq_floor_rpow M (frames d) i hM hf (le_of_lt hi)]
  rfl

/-- Witness for C3 at the spec's own scenario: `duration = 10`,
`max_candidates = 3000`, `i = 25` (where `classical[25] = 1500`). -/
theorem per_frame_formulas_witness :
    frames 10 = 10 * 5 ∧
    (run 10 3000 clock0 0).classical[25]? = some (25 * 3000 / frames 10) ∧
    (run 10 3000 clock0 0).quantum[25]? =
      some (min (Nat.floor
        ((2 : ℝ) ^ ((((25 : ℕ) : ℝ) * Real.logb 2 ((3000 : ℕ) : ℝ)) /
          ((frames 10) : ℝ)))) 3000) :=
  per_frame_formulas 10 3000 clock0 0 25 (by decide) (by decide)

/-- C4 (confirmed).  After frame `i` the three series all have length `i + 1`;
after a completed run they all have length `frame_count`; and each frame
appends exactly one element to each series, leaving the existing prefix
untouched. -/
theorem series_lengths_and_append (d M : ℕ) (c : ℕ → ℚ) (s : ℚ) :
    (∀ i : ℕ,
      (runUpTo d M c s (i + 1)).times.length = i + 1 ∧
      (runUpTo d M c s (i + 1)).classical.length = i + 1 ∧
      (runUpTo d M c s (i + 1)).quantum.length = i + 1) ∧
    ((run d M c s).times.length = frames d ∧
      (run d M c s).classical.length = frames d ∧
      (run d M c s).quantum.length = frames d) ∧
    (∀ i : ℕ,
      (runUpTo d M c s (i + 1)).times =
        (runUpTo d M c s i).times ++ [(i : ℚ) * ((d : ℚ) / ((frames d) : ℚ))] ∧
      (runUpTo d M c s (i + 1)).classical =
        (runUpTo d M c s i).classical ++ [classicalCount M (frames d) i] ∧
      (runUpTo d M c s (i + 1)).quantum =
        (runUpTo d M c s i).quantum ++ [quantumCount M (frames d) i]) :=
  ⟨fun i => ⟨runUpTo_times_length (i + 1), runUpTo_classical_length (i + 1),
      runUpTo_quantum_length (i + 1)⟩,
    ⟨runUpTo_times_length (frames d), runUpTo_classical_length (frames d),
      runUpTo_quantum_length (frames d)⟩,
    fun i => ⟨runUpTo_times_succ i, runUpTo_classical_succ i,
      runUpTo_quantum_succ i⟩⟩

/-- C5 (confirmed).  The breakthrough flag starts false, never reverts from
true to false, and the count of executed breakthrough side effects always
equals the flag's indicator — in particular it is at most 1 per run. -/
theorem breakthrough_flag_one_shot (d M : ℕ) (c : ℕ → ℚ) (s : ℚ) :
    (runUpTo d M c s 0).quantum_triggered = false ∧
    (∀ n : ℕ, (runUpTo d M c s n).quantum_triggered = true →
      (runUpTo d M c s (n + 1)).quantum_triggered = true) ∧
    (∀ n : ℕ, (runUpTo d M c s n).breakthroughEvents =
      if (runUpTo d M c s n).quantum_triggered = true then 1 else 0) ∧
    (∀ n : ℕ, (runUpTo d M c s n).breakthroughEvents ≤ 1) := by
  refine ⟨rfl, fun n h => runUpTo_triggered_mono n h,
    fun n => runUpTo_events_eq n, fun n => ?_⟩
  rw [runUpTo_events_eq n]
  split <;> omega

set_option maxRecDepth 20000 in
/-- Witness for C5: with `duration = 1`, `max_candidates = 2`, the flag set
after frame 0 is still set after frame 1. -/
theorem breakthrough_flag_one_shot_witness :
    (runUpTo 1 2 clock0 0 2).quantum_triggered = true :=
  (breakthrough_flag_one_shot 1 2 clock0 0).2.1 1 (by decide)

/-- C6 (confirmed).  For every configuration with `max_candidates ≥ 1`, both
the classical and the quantum series are non-decreasing. -/
theorem series_nondecreasing (d M : ℕ) (c : ℕ → ℚ) (s : ℚ) (hM : 1 ≤ M) :
    List.Chain' (fun a b => a ≤ b) (run d M c s).classical ∧
    List.Chain' (fun a b => a ≤ b) (run d M c s).quantum :=
  ⟨runUpTo_classical_chain (frames d), runUpTo_quantum_chain (frames d) hM⟩

/-- Witness for C6 at `duration = 1`, `max_candidates = 2`. -/
theorem series_nondecreasing_witness :
    List.Chain' (fun a b => a ≤ b) (run 1 2 clock0 0).classical ∧
    List.Chain' (fun a b => a ≤ b) (run 1 2 clock0 0).quantum :=
  series_nondecreasing 1 2 clock0 0 (by decide)

/-- C7 counterexample.  A failing molecule render does not degrade to "no
image shown": the core has no handler around the render call, so the failure
propagates out of the breakthrough branch (the run aborts) instead of
producing the graceful no-image result. -/
theorem render_failure_aborts :
    breakthroughDisplay failingRender true "C1CCCC" =
      Except.error "ArgumentError" ∧
    breakthroughDisplay failingRender true "C1CCCC" ≠ Except.ok none :=
  ⟨rfl, by decide⟩

/-- C7 (corrected).  For an unknown SMILES descriptor, Name Lookup does
return the "Unknown Compound" sentinel; but a molecule-render failure is not
caught by the core: with `show_molecule` set it propagates and aborts the
run.  Only with `show_molecule` unset is the render skipped. -/
theorem unknown_smiles_sentinel_and_propagation {ε α : Type}
    (render : String → Except ε α) (smiles : String) (e : ε)
    (hs : pyStrip smiles ≠ "CC(=O)OC1=CC=CC=C1C(=O)O")
    (hr : render smiles = Except.error e) :
    get_scientific_name smiles = "Unknown Compound" ∧
    breakthroughDisplay render true smiles = Except.error e ∧
    breakthroughDisplay render false smiles = Except.ok none := by
  refine ⟨?_, ?_, rfl⟩
  · simp [get_scientific_name, hs]
  · simp [breakthroughDisplay, hr]

/-- Witness for C7's corrected theorem with an unknown descriptor and the
always-failing renderer. -/
theorem unknown_smiles_sentinel_and_propagation_witness :
    get_scientific_name "C1CC1" = "Unknown Compound" ∧
    breakthroughDisplay failingRender true "C1CC1" =
      Except.error "ArgumentError" ∧
    breakthroughDisplay failingRender false "C1CC1" = Except.ok none :=
  unknown_smiles_sentinel_and_propagation failingRender "C1CC1" "ArgumentError"
    (by decide) rfl

/-- C8 (code_bug).  With `frame_count = 0` the loop indeed produces three
empty series, but the final-metrics section is not skipped: `quantum[-1]` on
the empty list raises `IndexError`, so the run crashes instead of signalling
a "no data" condition. -/
theorem frames_zero_no_metrics (d M : ℕ) (c : ℕ → ℚ) (s : ℚ)
    (h : frames d = 0) :
    (run d M c s).times = [] ∧ (run d M c s).classical = [] ∧
    (run d M c s).quantum = [] ∧
    finalMetrics d (run d M c s).classical (run d M c s).quantum =
      Except.error PyError.indexError := by
  have hrun : run d M c s = initState := by
    show runUpTo d M c s (frames d) = initState
    rw [h]
    rfl
  rw [hrun]
  exact ⟨rfl, rfl, rfl, rfl⟩

/-- Witness for C8 at `duration = 0` (the only integer duration with
`frame_count = 0`). -/
theorem frames_zero_no_metrics_witness :
    (run 0 100 clock0 0).times = [] ∧ (run 0 100 clock0 0).classical = [] ∧
    (run 0 100 clock0 0).quantum = [] ∧
    finalMetrics 0 (run 0 100 clock0 0).classical (run 0 100 clock0 0).quantum =
      Except.error PyError.indexError :=
  frames_zero_no_metrics 0 100 clock0 0 rfl

/-- C9 (confirmed).  The three series are a deterministic function of the
configuration: two runs with the same `duration` and `max_candidates` but
arbitrary (different) wall-clock behaviour produce identical `times`,
`classical` and `quantum` series — the `elapsed` clock reading is discarded
and nothing else is run-dependent. -/
theorem series_deterministic (d M : ℕ) (c₁ c₂ : ℕ → ℚ) (s₁ s₂ : ℚ) :
    (run d M c₁ s₁).times = (run d M c₂ s₂).times ∧
    (run d M c₁ s₁).classical = (run d M c₂ s₂).classical ∧
    (run d M c₁ s₁).quantum = (run d M c₂ s₂).quantum := by
  have h : run d M c₁ s₁ = run d M c₂ s₂ :=
    runUpTo_clock_irrelevant d M c₁ c₂ s₁ s₂ (frames d)
  rw [h]
  exact ⟨rfl, rfl, rfl⟩

/-- C10 (confirmed).  For every configuration with `frame_count ≥ 1` and
`max_candidates ≥ 1`, the breakthrough condition `q > 3·c` already holds at
frame 0 (`quantum[0] ≥ 1`, `classical[0] = 0`), so the flag is set — and the
side effects run — at the very first frame of every run, and the flag is
still set at the end of the run. -/
theorem breakthrough_at_frame_zero (d M : ℕ) (c : ℕ → ℚ) (s : ℚ)
    (hM : 1 ≤ M) (hd : 1 ≤ frames d) :
    (runUpTo d M c s 1).quantum_triggered = true ∧
    (runUpTo d M c s 1).breakthroughEvents = 1 ∧
    (run d M c s).quantum_triggered = true := by
  have h1 : (runUpTo d M c s 1).quantum_triggered = true :=
    runUpTo_one_triggered hM
  refine ⟨h1, ?_, runUpTo_triggered_of_le 1 (frames d) hd h1⟩
  rw [runUpTo_events_eq 1, h1]
  rfl

set_option maxRecDepth 20000 in
/-- Witness for C10 at `duration = 1`, `max_candidates = 2`. -/
theorem breakthrough_at_frame_zero_witness :
    (runUpTo 1 2 clock0 0 1).quantum_triggered = true ∧
    (runUpTo 1 2 clock0 0 1).breakthroughEvents = 1 ∧
    (run 1 2 clock0 0).quantum_triggered = true :=
  breakthrough_at_frame_zero 1 2 clock0 0 (by decide) (by decide)

end QuantumSim
